import Mathlib

/-!
Shallow embedding of `pkg/cmd/gist/create/create.go` (the `gh gist create`
subcommand): the file collector `processFiles`, the naming heuristic
`guessGistName`, and the orchestration `createRun`.

External collaborators are modelled explicitly:
* standard input (`opts.IO.In`, an `os.File` in production) is a stream state
  with read-all and close operations; reading a closed stream fails the way a
  closed `os.File` does;
* the local filesystem (`ioutil.ReadFile`) is a function from path to
  `Except ioError content`;
* the HTTP client factory and the remote `apiCreate` call are parameters
  carrying their outcome;
* terminal colour helpers (`utils.Gray` etc.) are identity on text and are
  dropped from the modelled stream lines, which carry the message text only.

Go `map[string]string` is modelled as an association list with in-place
update, plus the list of keys in iteration order where the code ranges over
the map.
-/

/-- State of the standard-input stream. `content` is what a read-to-EOF
would still return; `closed` records whether `Close` has been called
(reads on a closed `os.File` fail). -/
structure StdinStream where
  content : String
  closed : Bool
deriving DecidableEq, Repr

/-- Model of `ioutil.ReadAll(stdin)`: on an open stream it returns the whole
remaining content and leaves the stream drained; on a closed stream it fails
like a read on a closed `os.File`. -/
def readAllStdin (s : StdinStream) : Except String String × StdinStream :=
  if s.closed then (Except.error "file already closed", s)
  else (Except.ok s.content, { s with content := "" })

/-- Model of `stdin.Close()`. -/
def closeStdin (s : StdinStream) : StdinStream :=
  { s with closed := true }

/-- Observable operations performed on the standard-input stream by the
collector, in order. -/
inductive StdinEvent where
  | readOk (data : String)
  | readFail
  | close
deriving DecidableEq, Repr

/-- Errors returned by `processFiles` (create.go lines 143-162):
`noFiles` is `errors.New("no files passed")`; `stdinRead cause` is
`fmt.Errorf("failed to read from stdin: %w", cause)`; `fileRead path cause`
is `fmt.Errorf("failed to read file %s: %w", path, cause)` — it names the
offending path and wraps the underlying failure. -/
inductive CollectError where
  | noFiles
  | stdinRead (cause : String)
  | fileRead (path : String) (cause : String)
deriving DecidableEq, Repr

/-- Go map assignment `fs[k] = v`: update the existing entry in place, or add
a new one. -/
def insertKV : List (String × String) → String → String → List (String × String)
  | [], k, v => [(k, v)]
  | (k0, v0) :: rest, k, v =>
    if k0 = k then (k, v) :: rest else (k0, v0) :: insertKV rest k v

/-- Go map read `fs[k]`. -/
def lookupKV : List (String × String) → String → Option String
  | [], _ => none
  | (k0, v0) :: rest, k => if k0 = k then some v0 else lookupKV rest k

/-- Go `path.Base`: the last element of the path after stripping trailing
slashes; `"."` for the empty path, `"/"` for an all-slash path. -/
def pathBase (p : String) : String :=
  if p = "" then "."
  else
    let rev := p.toList.reverse.dropWhile (fun c => c = '/')
    if rev = [] then "/"
    else String.mk (rev.takeWhile (fun c => c ≠ '/')).reverse

/-- The synthetic stdin filename `fmt.Sprintf("gistfile%d.txt", i)`
(create.go line 152). -/
def synName (i : Nat) : String :=
  "gistfile" ++ toString i ++ ".txt"

/-- Loop body of `processFiles` (create.go lines 147-167), with the running
index `i` of the `range` loop made explicit. Returns the collector outcome,
the trace of stdin operations, and the final stdin state. -/
def processFilesAux (fsys : String → Except String String) :
    Nat → List String → StdinStream → List (String × String) →
    Except CollectError (List (String × String)) × List StdinEvent × StdinStream
  | _, [], st, fs => (Except.ok fs, [], st)
  | i, f :: rest, st, fs =>
    if f = "-" then
      match readAllStdin st with
      | (Except.error cause, st1) =>
        (Except.error (CollectError.stdinRead cause), [StdinEvent.readFail], st1)
      | (Except.ok data, st1) =>
        let st2 := closeStdin st1
        match processFilesAux fsys (i + 1) rest st2 (insertKV fs (synName i) data) with
        | (r, evs, st3) => (r, StdinEvent.readOk data :: StdinEvent.close :: evs, st3)
    else
      match fsys f with
      | Except.error cause => (Except.error (CollectError.fileRead f cause), [], st)
      | Except.ok content =>
        processFilesAux fsys (i + 1) rest st (insertKV fs (pathBase f) content)

/-- `processFiles` (create.go lines 140-170). Go returns the partial map
alongside an error; no caller reads the map in the error case, so the pair is
collapsed into `Except`. -/
def processFiles (stdin : StdinStream) (filenames : List String)
    (fsys : String → Except String String) :
    Except CollectError (List (String × String)) × List StdinEvent × StdinStream :=
  if filenames = [] then (Except.error CollectError.noFiles, [], stdin)
  else processFilesAux fsys 0 filenames stdin []

/-- Strips `pre` from the front of `cs`, if it is there. -/
def stripPre : List Char → List Char → Option (List Char)
  | [], cs => some cs
  | _ :: _, [] => none
  | p :: ps, c :: cs => if p = c then stripPre ps cs else none

/-- The synthetic-name test of `guessGistName`: Go regexp match against
the anchored pattern gistfile digits .txt (create.go line 176,
regexp `gistfile` `\d+` `.txt` anchored at both ends; `\d` is ASCII 0-9). -/
def isSyntheticKey (k : String) : Bool :=
  match stripPre ("gistfile".toList) k.toList with
  | none => false
  | some rest =>
    match stripPre ((".txt".toList).reverse) rest.reverse with
    | none => false
    | some midRev =>
      let mid := midRev.reverse
      !mid.isEmpty && mid.all Char.isDigit

/-- Lexicographic order on character lists. For valid UTF-8 this agrees
byte for byte with the Go string order used by `sort.Strings`. -/
def lexLeL : List Char → List Char → Bool
  | [], _ => true
  | _ :: _, [] => false
  | a :: as, b :: bs => if a = b then lexLeL as bs else decide (a < b)

/-- The Go string order used by `sort.Strings` (create.go line 184). -/
def lexLe (a b : String) : Bool :=
  lexLeL a.toList b.toList

/-- `lexLe` as a relation, for sorting. -/
def strLeRel (a b : String) : Prop :=
  lexLe a b = true

instance : DecidableRel strLeRel :=
  fun a b => inferInstanceAs (Decidable (lexLe a b = true))

/-- `guessGistName` (create.go lines 172-189). The argument is the sequence
of map keys in the (unspecified) order the `range` loop visits them; the
result is proved independent of that order below. -/
def guessGistName (keys : List String) : String :=
  let filenames := keys.filter (fun k => !isSyntheticKey k)
  match List.insertionSort strLeRel filenames with
  | [] => ""
  | first :: _ => first

/-- The remote gist resource; the core only reads `HTMLURL`. -/
structure Gist where
  htmlUrl : String
deriving DecidableEq, Repr

/-- Outcome of the remote `apiCreate` call when it fails: either an
`api.HTTPError` (which carries the `OAuthScopes` response header) or any
other error. -/
inductive ApiError where
  | http (oauthScopes : String) (msg : String)
  | other (msg : String)
deriving DecidableEq, Repr

/-- Go `strings.Contains` style check: does `needle` occur as a contiguous
run inside the second argument? -/
def startsWithL : List Char → List Char → Bool
  | _, [] => true
  | [], _ :: _ => false
  | c :: cs, n :: ns => c = n && startsWithL cs ns

/-- Go `strings.Contains hay needle` on character lists. -/
def containsSub (needle : List Char) : List Char → Bool
  | [] => needle.isEmpty
  | c :: t => startsWithL (c :: t) needle || containsSub needle t

/-- The scope test of `createRun` (create.go line 126): the error is an
`api.HTTPError` whose `OAuthScopes` field is non-empty and does not contain
the substring "gist". -/
def missingGistScope : ApiError → Bool
  | ApiError.http scopes _ => !(scopes = "") && !(containsSub ("gist".toList) scopes.toList)
  | ApiError.other _ => false

/-- Errors returned by `createRun`: `collect e` wraps a collector failure
("failed to collect files for posting"), `client` propagates an HTTP-client
factory failure, `scope` is the fixed re-authentication remediation error of
create.go line 127, and `publish e` is the generic wrapper
("Failed to create gist") around any other `apiCreate` failure. -/
inductive RunError where
  | collect (e : CollectError)
  | client (msg : String)
  | scope
  | publish (e : ApiError)
deriving DecidableEq, Repr

/-- Lines written to the status/error stream, tagged by emission site:
the progress line of create.go line 115 and the completion line of
line 133. The payload is the message text. -/
inductive StatusEvent where
  | progress (msg : String)
  | completion (msg : String)
deriving DecidableEq, Repr

/-- Is this status line the completion message? -/
def isCompletionEv : StatusEvent → Bool
  | StatusEvent.completion _ => true
  | StatusEvent.progress _ => false

/-- The option fields of `CreateOptions` the run logic reads. -/
structure CreateOptions where
  description : String
  publicFlag : Bool
  filenames : List String

/-- Everything observable about one `createRun` invocation. -/
structure RunOutcome where
  outLines : List String
  status : List StatusEvent
  stdinEvents : List StdinEvent
  result : Option RunError
deriving DecidableEq, Repr

/-- Defaulting of the argument list (create.go lines 91-94): an empty list
becomes the single token "-". -/
def effectiveFileArgs (filenames : List String) : List String :=
  if filenames = [] then ["-"] else filenames

/-- The progress message (create.go lines 103-112): defaults to
"Creating gist..."; when a name was guessed it becomes either the
multiple-files text or "Creating gist name" depending on the map size. -/
def processMessageFor (gistName : String) (n : Nat) : String :=
  if gistName = "" then "Creating gist..."
  else if 1 < n then "Creating gist with multiple files"
  else "Creating gist " ++ gistName

/-- The completion message (create.go lines 104-112). -/
def completionMessageFor (gistName : String) : String :=
  if gistName = "" then "Created gist" else "Created gist " ++ gistName

/-- `createRun` (create.go lines 90-138). The filesystem, the HTTP-client
factory outcome and the `apiCreate` outcome are the external collaborators,
passed as parameters. -/
def createRun (opts : CreateOptions) (stdin : StdinStream)
    (fsys : String → Except String String)
    (httpClient : Except String Unit)
    (apiResult : Except ApiError Gist) : RunOutcome :=
  match processFiles stdin (effectiveFileArgs opts.filenames) fsys with
  | (Except.error e, evs, _) =>
    { outLines := [], status := [], stdinEvents := evs,
      result := some (RunError.collect e) }
  | (Except.ok files, evs, _) =>
    let gistName := guessGistName (files.map Prod.fst)
    let pMsg := processMessageFor gistName files.length
    let cMsg := completionMessageFor gistName
    match httpClient with
    | Except.error e =>
      { outLines := [], status := [StatusEvent.progress pMsg], stdinEvents := evs,
        result := some (RunError.client e) }
    | Except.ok _ =>
      match apiResult with
      | Except.error aerr =>
        if missingGistScope aerr then
          { outLines := [], status := [StatusEvent.progress pMsg], stdinEvents := evs,
            result := some RunError.scope }
        else
          { outLines := [], status := [StatusEvent.progress pMsg], stdinEvents := evs,
            result := some (RunError.publish aerr) }
      | Except.ok gist =>
        { outLines := [gist.htmlUrl],
          status := [StatusEvent.progress pMsg, StatusEvent.completion cMsg],
          stdinEvents := evs,
          result := none }

/-- The single URL line printed on `apiCreate` success, nothing otherwise. -/
def apiUrlList : Except ApiError Gist → List String
  | Except.ok g => [g.htmlUrl]
  | Except.error _ => []

/-- Content of a successful read, for stating last-write-wins. -/
def exGet : Except String String → String
  | Except.ok c => c
  | Except.error _ => ""

/-- Left-biased choice on options. -/
def optOr : Option String → Option String → Option String
  | some a, _ => some a
  | none, b => b

/-- The map built by the real-file branch of the loop, written as a fold. -/
def collectFold (fsys : String → Except String String)
    (fs : List (String × String)) (paths : List String) : List (String × String) :=
  paths.foldl (fun acc p => insertKV acc (pathBase p) (exGet (fsys p))) fs

/-- Content of the last path in `paths` whose basename is `k`, if any:
the value last-write-wins assigns to key `k`. -/
def lastWrite (fsys : String → Except String String)
    (paths : List String) (k : String) : Option String :=
  (paths.reverse.find? (fun p => pathBase p == k)).map (fun p => exGet (fsys p))

/-- Number of successful reads of the stdin stream in a trace. -/
def countReadOk (evs : List StdinEvent) : Nat :=
  evs.countP (fun e => match e with | StdinEvent.readOk _ => true | _ => false)

/-- Number of close operations on the stdin stream in a trace. -/
def countClose (evs : List StdinEvent) : Nat :=
  evs.countP (fun e => match e with | StdinEvent.close => true | _ => false)

/-! Order-theoretic facts about the sort order. -/

theorem lexLeL_refl : ∀ as, lexLeL as as = true := by
  intro as
  induction as with
  | nil => rfl
  | cons a as ih => simp [lexLeL, ih]

theorem lexLeL_total : ∀ as bs, lexLeL as bs = true ∨ lexLeL bs as = true := by
  intro as
  induction as with
  | nil => intro bs; left; rfl
  | cons a as ih =>
    intro bs
    cases bs with
    | nil => right; rfl
    | cons b bs =>
      by_cases hab : a = b
      · subst hab
        simpa [lexLeL] using ih bs
      · have hba : b ≠ a := fun h => hab h.symm
        rcases lt_or_gt_of_ne hab with h | h
        · left; simp [lexLeL, hab, h]
        · right; simp [lexLeL, hba, h]

theorem lexLeL_trans :
    ∀ as bs cs, lexLeL as bs = true → lexLeL bs cs = true → lexLeL as cs = true := by
  intro as
  induction as with
  | nil => intro bs cs _ _; rfl
  | cons a as ih =>
    intro bs cs h1 h2
    cases bs with
    | nil => simp [lexLeL] at h1
    | cons b bs =>
      cases cs with
      | nil => simp [lexLeL] at h2
      | cons c cs =>
        simp only [lexLeL] at h1 h2 ⊢
        by_cases hab : a = b
        · subst hab
          by_cases hac : a = c
          · subst hac
            simp only [if_pos rfl] at h1 h2 ⊢
            exact ih bs cs h1 h2
          · simpa [hac] using h2
        · by_cases hbc : b = c
          · subst hbc
            simpa [hab] using h1
          · simp only [if_neg hab] at h1
            simp only [if_neg hbc] at h2
            have hab2 : a < b := of_decide_eq_true h1
            have hbc2 : b < c := of_decide_eq_true h2
            have hac2 : a < c := lt_trans hab2 hbc2
            simp [ne_of_lt hac2, hac2]

theorem lexLeL_antisymm :
    ∀ as bs, lexLeL as bs = true → lexLeL bs as = true → as = bs := by
  intro as
  induction as with
  | nil =>
    intro bs _ h2
    cases bs with
    | nil => rfl
    | cons b bs => simp [lexLeL] at h2
  | cons a as ih =>
    intro bs h1 h2
    cases bs with
    | nil => simp [lexLeL] at h1
    | cons b bs =>
      simp only [lexLeL] at h1 h2
      by_cases hab : a = b
      · subst hab
        simp only [if_pos rfl] at h1 h2
        rw [ih bs h1 h2]
      · have hba : b ≠ a := fun h => hab h.symm
        simp only [if_neg hab] at h1
        simp only [if_neg hba] at h2
        exact absurd (lt_trans (of_decide_eq_true h1) (of_decide_eq_true h2))
          (lt_irrefl a)

theorem stringToListInj {s t : String} (h : s.toList = t.toList) : s = t := by
  cases s
  cases t
  exact congrArg String.mk h

instance : IsRefl String strLeRel :=
  ⟨fun a => lexLeL_refl a.toList⟩

instance : IsTotal String strLeRel :=
  ⟨fun a b => lexLeL_total a.toList b.toList⟩

instance : IsTrans String strLeRel :=
  ⟨fun a b c => lexLeL_trans a.toList b.toList c.toList⟩

instance : IsAntisymm String strLeRel :=
  ⟨fun a b h1 h2 => stringToListInj (lexLeL_antisymm a.toList b.toList h1 h2)⟩

/-! Facts about the naming heuristic. -/

theorem guessGistName_def (keys : List String) :
    guessGistName keys =
      match List.insertionSort strLeRel (keys.filter (fun k => !isSyntheticKey k)) with
      | [] => ""
      | first :: _ => first := rfl

/-- Case analysis for `guessGistName`: either every key is synthetic and it
returns the empty string, or it returns a non-synthetic key that is a
lexicographic lower bound of all non-synthetic keys. -/
theorem guessGistName_spec (keys : List String) :
    (guessGistName keys = "" ∧ ∀ k ∈ keys, isSyntheticKey k = true) ∨
    (guessGistName keys ∈ keys ∧ isSyntheticKey (guessGistName keys) = false ∧
      ∀ k ∈ keys, isSyntheticKey k = false → strLeRel (guessGistName keys) k) := by
  cases hs : List.insertionSort strLeRel (keys.filter (fun k => !isSyntheticKey k)) with
  | nil =>
    left
    have hperm := List.perm_insertionSort strLeRel (keys.filter (fun k => !isSyntheticKey k))
    rw [hs] at hperm
    have hnil : keys.filter (fun k => !isSyntheticKey k) = [] := hperm.symm.eq_nil
    constructor
    · rw [guessGistName_def, hs]
    · intro k hk
      by_contra hcon
      have hkf : k ∈ keys.filter (fun k => !isSyntheticKey k) := by
        refine List.mem_filter.mpr ⟨hk, ?_⟩
        simp only [Bool.not_eq_true] at hcon
        simp [hcon]
      rw [hnil] at hkf
      exact absurd hkf (List.not_mem_nil k)
  | cons x xs =>
    right
    have hperm := List.perm_insertionSort strLeRel (keys.filter (fun k => !isSyntheticKey k))
    rw [hs] at hperm
    have hx : x ∈ keys.filter (fun k => !isSyntheticKey k) :=
      hperm.mem_iff.mp (List.mem_cons_self x xs)
    have hx2 := List.mem_filter.mp hx
    have hsort := List.sorted_insertionSort strLeRel (keys.filter (fun k => !isSyntheticKey k))
    rw [hs] at hsort
    have hmin : ∀ b ∈ xs, strLeRel x b := (List.sorted_cons.mp hsort).1
    rw [guessGistName_def, hs]
    refine ⟨hx2.1, ?_, ?_⟩
    · simpa using hx2.2
    · intro k hk hsyn
      have hkf : k ∈ keys.filter (fun k => !isSyntheticKey k) :=
        List.mem_filter.mpr ⟨hk, by simp [hsyn]⟩
      have hkc := hperm.mem_iff.mpr hkf
      rcases List.mem_cons.mp hkc with h | h
      · rw [h]
        exact lexLeL_refl x.toList
      · exact hmin k h

/-- The heuristic does not depend on the iteration order of the map keys. -/
theorem guessGistName_perm {keys1 keys2 : List String} (h : keys1.Perm keys2) :
    guessGistName keys1 = guessGistName keys2 := by
  have hf := h.filter (fun k => !isSyntheticKey k)
  have hsorteq :
      List.insertionSort strLeRel (keys1.filter (fun k => !isSyntheticKey k)) =
        List.insertionSort strLeRel (keys2.filter (fun k => !isSyntheticKey k)) := by
    exact List.eq_of_perm_of_sorted
      (((List.perm_insertionSort _ _).trans hf).trans
        (List.perm_insertionSort _ _).symm)
      (List.sorted_insertionSort strLeRel _)
      (List.sorted_insertionSort strLeRel _)
  rw [guessGistName_def, guessGistName_def, hsorteq]

/-! Derived forms and facts for the file collector. -/

theorem exceptIsOk_iff (e : Except String String) :
    Except.isOk e = true ↔ ∃ c, e = Except.ok c := by
  cases e <;> simp [Except.isOk, Except.toBool]

theorem lookupKV_insertKV (fs : List (String × String)) (k v k2 : String) :
    lookupKV (insertKV fs k v) k2 = if k = k2 then some v else lookupKV fs k2 := by
  induction fs with
  | nil => simp [insertKV, lookupKV]
  | cons kv rest ih =>
    obtain ⟨k0, v0⟩ := kv
    by_cases h : k0 = k
    · subst h
      by_cases h2 : k0 = k2 <;> simp [insertKV, lookupKV, h2]
    · have h4 : insertKV ((k0, v0) :: rest) k v = (k0, v0) :: insertKV rest k v := by
        simp [insertKV, h]
      rw [h4]
      by_cases h2 : k0 = k2
      · subst h2
        have hk2 : k ≠ k0 := fun hh => h hh.symm
        simp [lookupKV, hk2]
      · simp [lookupKV, h2, ih]

theorem optOr_assoc (a b c : Option String) :
    optOr (optOr a b) c = optOr a (optOr b c) := by
  cases a <;> rfl

theorem optOr_none (a : Option String) : optOr none a = a := rfl

theorem find?_append_opt (q : String → Bool) :
    ∀ l1 l2 : List String, (l1 ++ l2).find? q = optOr (l1.find? q) (l2.find? q) := by
  intro l1 l2
  induction l1 with
  | nil => simp [optOr]
  | cons a l1 ih =>
    by_cases h : q a = true <;> simp [List.find?, h, ih, optOr]

theorem map_optOr (f : String → String) (a b : Option String) :
    (optOr a b).map f = optOr (a.map f) (b.map f) := by
  cases a <;> rfl

theorem lastWrite_cons (fsys : String → Except String String)
    (p : String) (paths : List String) (k : String) :
    lastWrite fsys (p :: paths) k =
      optOr (lastWrite fsys paths k)
        (if pathBase p = k then some (exGet (fsys p)) else none) := by
  unfold lastWrite
  rw [List.reverse_cons, find?_append_opt, map_optOr]
  congr 1
  by_cases h : pathBase p = k
  · have hb : (pathBase p == k) = true := by simp [h]
    simp [List.find?, hb, h]
  · have hb : (pathBase p == k) = false := by simp [h]
    simp [List.find?, hb, h]

theorem lookupKV_collectFold (fsys : String → Except String String) :
    ∀ (paths : List String) (fs : List (String × String)) (k : String),
      lookupKV (collectFold fsys fs paths) k =
        optOr (lastWrite fsys paths k) (lookupKV fs k) := by
  intro paths
  induction paths with
  | nil => intro fs k; simp [collectFold, lastWrite, List.find?, optOr]
  | cons p paths ih =>
    intro fs k
    have hstep : collectFold fsys fs (p :: paths) =
        collectFold fsys (insertKV fs (pathBase p) (exGet (fsys p))) paths := rfl
    rw [hstep, ih, lookupKV_insertKV, lastWrite_cons, optOr_assoc]
    congr 1
    by_cases h : pathBase p = k <;> simp [h, optOr]

/-- A key has a last writer exactly when it is the basename of some path. -/
theorem lastWrite_isSome_iff (fsys : String → Except String String)
    (paths : List String) (k : String) :
    (lastWrite fsys paths k).isSome = true ↔ k ∈ paths.map pathBase := by
  unfold lastWrite
  rw [show (Option.map (fun p => exGet (fsys p))
        (List.find? (fun p => pathBase p == k) paths.reverse)).isSome =
      (List.find? (fun p => pathBase p == k) paths.reverse).isSome from by
    cases List.find? (fun p => pathBase p == k) paths.reverse <;> rfl]
  rw [List.find?_isSome]
  constructor
  · rintro ⟨p, hp, hq⟩
    exact List.mem_map.mpr ⟨p, List.mem_reverse.mp hp, of_decide_eq_true hq⟩
  · rintro h
    obtain ⟨p, hp, hq⟩ := List.mem_map.mp h
    exact ⟨p, List.mem_reverse.mpr hp, decide_eq_true hq⟩

/-- Real-file tokens only: one pass of the loop over `pre` inserts the read
contents keyed by basename and touches neither stdin nor the trace. -/
theorem processFilesAux_nodash (fsys : String → Except String String) :
    ∀ (pre rest : List String) (i : Nat) (st : StdinStream)
      (fs : List (String × String)),
      (∀ p ∈ pre, p ≠ "-") → (∀ p ∈ pre, Except.isOk (fsys p) = true) →
      processFilesAux fsys i (pre ++ rest) st fs =
        processFilesAux fsys (i + pre.length) rest st (collectFold fsys fs pre) := by
  intro pre
  induction pre with
  | nil =>
    intro rest i st fs _ _
    simp [collectFold]
  | cons p pre ih =>
    intro rest i st fs hnd hok
    have hp : p ≠ "-" := hnd p (List.mem_cons_self p pre)
    have hpo := hok p (List.mem_cons_self p pre)
    obtain ⟨c, hc⟩ : ∃ c, fsys p = Except.ok c := (exceptIsOk_iff (fsys p)).mp hpo
    have hcons : (p :: pre) ++ rest = p :: (pre ++ rest) := rfl
    rw [hcons]
    have hstep : processFilesAux fsys i (p :: (pre ++ rest)) st fs =
        processFilesAux fsys (i + 1) (pre ++ rest) st
          (insertKV fs (pathBase p) c) := by
      simp [processFilesAux, hp, hc]
    rw [hstep,
      ih rest (i + 1) st (insertKV fs (pathBase p) c)
        (fun q hq => hnd q (List.mem_cons_of_mem p hq))
        (fun q hq => hok q (List.mem_cons_of_mem p hq))]
    have hidx : i + 1 + pre.length = i + (p :: pre).length := by
      simp [List.length_cons]
      omega
    have hfold : collectFold fsys (insertKV fs (pathBase p) c) pre =
        collectFold fsys fs (p :: pre) := by
      simp [collectFold, hc, exGet]
    rw [hidx, hfold]

/-- Collector outcome on a non-empty dash-free list of readable files. -/
theorem processFiles_nodash (stdin : StdinStream) (paths : List String)
    (fsys : String → Except String String)
    (hne : paths ≠ []) (hnd : ∀ p ∈ paths, p ≠ "-")
    (hok : ∀ p ∈ paths, Except.isOk (fsys p) = true) :
    processFiles stdin paths fsys =
      (Except.ok (collectFold fsys [] paths), [], stdin) := by
  unfold processFiles
  rw [if_neg hne]
  have h := processFilesAux_nodash fsys paths [] 0 stdin [] hnd hok
  rw [List.append_nil] at h
  rw [h]
  rfl

/-! Step equations for the collector loop, and characterizations of its
success, its error values, and its stdin usage. -/

theorem processFilesAux_dash_closed (fsys : String → Except String String)
    (i : Nat) (rest : List String) (st : StdinStream) (fs : List (String × String))
    (hcl : st.closed = true) :
    processFilesAux fsys i ("-" :: rest) st fs =
      (Except.error (CollectError.stdinRead "file already closed"),
        [StdinEvent.readFail], st) := by
  simp [processFilesAux, readAllStdin, hcl]

theorem processFilesAux_dash_open (fsys : String → Except String String)
    (i : Nat) (rest : List String) (st : StdinStream) (fs : List (String × String))
    (hcl : st.closed = false) :
    processFilesAux fsys i ("-" :: rest) st fs =
      ((processFilesAux fsys (i + 1) rest (closeStdin { st with content := "" })
          (insertKV fs (synName i) st.content)).1,
        StdinEvent.readOk st.content :: StdinEvent.close ::
          (processFilesAux fsys (i + 1) rest (closeStdin { st with content := "" })
            (insertKV fs (synName i) st.content)).2.1,
        (processFilesAux fsys (i + 1) rest (closeStdin { st with content := "" })
          (insertKV fs (synName i) st.content)).2.2) := by
  simp only [processFilesAux, if_pos rfl, readAllStdin, hcl, Bool.false_eq_true,
    if_false]
  rcases processFilesAux fsys (i + 1) rest (closeStdin { st with content := "" })
      (insertKV fs (synName i) st.content) with ⟨r, evs, st3⟩
  rfl

theorem processFilesAux_file_ok (fsys : String → Except String String)
    (i : Nat) (rest : List String) (st : StdinStream) (fs : List (String × String))
    (f c : String) (hf : f ≠ "-") (hc : fsys f = Except.ok c) :
    processFilesAux fsys i (f :: rest) st fs =
      processFilesAux fsys (i + 1) rest st (insertKV fs (pathBase f) c) := by
  simp [processFilesAux, hf, hc]

theorem processFilesAux_file_err (fsys : String → Except String String)
    (i : Nat) (rest : List String) (st : StdinStream) (fs : List (String × String))
    (f e : String) (hf : f ≠ "-") (he : fsys f = Except.error e) :
    processFilesAux fsys i (f :: rest) st fs =
      (Except.error (CollectError.fileRead f e), [], st) := by
  simp [processFilesAux, hf, he]

/-- The loop succeeds exactly when every real-file read succeeds and the
stdin tokens are compatible with the stream state: none at all, or exactly
one while the stream is still open. -/
theorem processFilesAux_isOk (fsys : String → Except String String) :
    ∀ (filenames : List String) (i : Nat) (st : StdinStream)
      (fs : List (String × String)),
      Except.isOk (processFilesAux fsys i filenames st fs).1 = true ↔
        ((∀ p ∈ filenames, p ≠ "-" → Except.isOk (fsys p) = true) ∧
          ("-" ∉ filenames ∨ (st.closed = false ∧ filenames.count "-" = 1))) := by
  intro filenames
  induction filenames with
  | nil =>
    intro i st fs
    simp [processFilesAux, Except.isOk, Except.toBool]
  | cons f rest ih =>
    intro i st fs
    by_cases hf : f = "-"
    · subst hf
      cases hcl : st.closed with
      | true =>
        rw [processFilesAux_dash_closed fsys i rest st fs hcl]
        constructor
        · intro h
          simp [Except.isOk, Except.toBool] at h
        · rintro ⟨_, h2 | ⟨h3, _⟩⟩
          · exact absurd (List.mem_cons_self _ rest) h2
          · exact Bool.noConfusion h3
      | false =>
        rw [processFilesAux_dash_open fsys i rest st fs hcl]
        show Except.isOk (processFilesAux fsys (i + 1) rest
            (closeStdin { st with content := "" })
            (insertKV fs (synName i) st.content)).1 = true ↔ _
        rw [ih]
        have hclosed : (closeStdin { st with content := "" }).closed = true := rfl
        constructor
        · rintro ⟨h1, h2 | ⟨h3, _⟩⟩
          · refine ⟨?_, Or.inr ⟨rfl, ?_⟩⟩
            · intro p hp hne
              rcases List.mem_cons.mp hp with h | h
              · exact absurd h hne
              · exact h1 p h hne
            · have h0 : List.count "-" rest = 0 := List.count_eq_zero.mpr h2
              rw [List.count_cons_self, h0]
          · rw [hclosed] at h3
            exact Bool.noConfusion h3
        · rintro ⟨h1, h2 | ⟨_, hcount⟩⟩
          · exact absurd (List.mem_cons_self _ rest) h2
          · refine ⟨fun p hp hne => h1 p (List.mem_cons_of_mem _ hp) hne, Or.inl ?_⟩
            rw [List.count_cons_self] at hcount
            exact List.count_eq_zero.mp (by omega)
    · cases hfp : fsys f with
      | error e =>
        rw [processFilesAux_file_err fsys i rest st fs f e hf hfp]
        constructor
        · intro h
          simp [Except.isOk, Except.toBool] at h
        · rintro ⟨h1, _⟩
          have hcon := h1 f (List.mem_cons_self f rest) hf
          rw [hfp] at hcon
          simp [Except.isOk, Except.toBool] at hcon
      | ok c =>
        rw [processFilesAux_file_ok fsys i rest st fs f c hf hfp, ih]
        have hfb : (f == "-") = false := by simp [hf]
        constructor
        · rintro ⟨h1, h2⟩
          refine ⟨?_, ?_⟩
          · intro p hp hne
            rcases List.mem_cons.mp hp with h | h
            · rw [h, hfp]; rfl
            · exact h1 p h hne
          · rcases h2 with h2 | h2
            · left
              intro hm
              rcases List.mem_cons.mp hm with h | h
              · exact hf h.symm
              · exact h2 h
            · right
              refine ⟨h2.1, ?_⟩
              rw [List.count_cons, hfb]
              simpa using h2.2
        · rintro ⟨h1, h2⟩
          refine ⟨fun p hp hne => h1 p (List.mem_cons_of_mem _ hp) hne, ?_⟩
          rcases h2 with h2 | h2
          · left
            exact fun hm => h2 (List.mem_cons_of_mem _ hm)
          · right
            refine ⟨h2.1, ?_⟩
            have := h2.2
            rw [List.count_cons, hfb] at this
            simpa using this

/-- `processFiles` succeeds exactly on a non-empty list whose reads all
succeed (stdin reads included). -/
theorem processFiles_isOk (stdin : StdinStream) (filenames : List String)
    (fsys : String → Except String String) :
    Except.isOk (processFiles stdin filenames fsys).1 = true ↔
      (filenames ≠ [] ∧ (∀ p ∈ filenames, p ≠ "-" → Except.isOk (fsys p) = true) ∧
        ("-" ∉ filenames ∨ (stdin.closed = false ∧ filenames.count "-" = 1))) := by
  by_cases h : filenames = []
  · subst h
    simp [processFiles, Except.isOk, Except.toBool]
  · unfold processFiles
    rw [if_neg h, processFilesAux_isOk]
    exact (and_iff_right h).symm

/-- A `fileRead` error names a path of the input list and carries exactly
the underlying filesystem failure for that path. -/
theorem processFilesAux_fileRead (fsys : String → Except String String) :
    ∀ (filenames : List String) (i : Nat) (st : StdinStream)
      (fs : List (String × String)) (p cause : String),
      (processFilesAux fsys i filenames st fs).1 =
          Except.error (CollectError.fileRead p cause) →
        p ∈ filenames ∧ fsys p = Except.error cause := by
  intro filenames
  induction filenames with
  | nil =>
    intro i st fs p cause h
    simp [processFilesAux] at h
  | cons f rest ih =>
    intro i st fs p cause h
    by_cases hf : f = "-"
    · subst hf
      cases hcl : st.closed with
      | true =>
        rw [processFilesAux_dash_closed fsys i rest st fs hcl] at h
        simp at h
      | false =>
        rw [processFilesAux_dash_open fsys i rest st fs hcl] at h
        obtain ⟨hm, he⟩ := ih (i + 1) _ _ p cause h
        exact ⟨List.mem_cons_of_mem _ hm, he⟩
    · cases hfp : fsys f with
      | error e =>
        rw [processFilesAux_file_err fsys i rest st fs f e hf hfp] at h
        simp only [Except.error.injEq, CollectError.fileRead.injEq] at h
        obtain ⟨h1, h2⟩ := h
        rw [← h1, ← h2]
        exact ⟨List.mem_cons_self _ _, hfp⟩
      | ok c =>
        rw [processFilesAux_file_ok fsys i rest st fs f c hf hfp] at h
        obtain ⟨hm, he⟩ := ih (i + 1) _ _ p cause h
        exact ⟨List.mem_cons_of_mem _ hm, he⟩

/-- Once the stream is closed the loop never again transfers data from it or
closes it, and over any run it transfers data at most once and closes at
most once. -/
theorem processFilesAux_stdin_once (fsys : String → Except String String) :
    ∀ (filenames : List String) (i : Nat) (st : StdinStream)
      (fs : List (String × String)),
      (st.closed = true →
        countReadOk (processFilesAux fsys i filenames st fs).2.1 = 0 ∧
        countClose (processFilesAux fsys i filenames st fs).2.1 = 0) ∧
      countReadOk (processFilesAux fsys i filenames st fs).2.1 ≤ 1 ∧
      countClose (processFilesAux fsys i filenames st fs).2.1 ≤ 1 := by
  intro filenames
  induction filenames with
  | nil =>
    intro i st fs
    simp [processFilesAux, countReadOk, countClose]
  | cons f rest ih =>
    intro i st fs
    by_cases hf : f = "-"
    · subst hf
      cases hcl : st.closed with
      | true =>
        rw [processFilesAux_dash_closed fsys i rest st fs hcl]
        simp [countReadOk, countClose]
      | false =>
        rw [processFilesAux_dash_open fsys i rest st fs hcl]
        have hclosed : (closeStdin { st with content := "" }).closed = true := rfl
        obtain ⟨h0, _, _⟩ :=
          ih (i + 1) (closeStdin { st with content := "" })
            (insertKV fs (synName i) st.content)
        obtain ⟨hr0, hc0⟩ := h0 hclosed
        refine ⟨?_, ?_, ?_⟩
        · intro hcon
          exact Bool.noConfusion hcon
        · show countReadOk (StdinEvent.readOk st.content :: StdinEvent.close ::
            (processFilesAux fsys (i + 1) rest (closeStdin { st with content := "" })
              (insertKV fs (synName i) st.content)).2.1) ≤ 1
          have hstepc : countReadOk (StdinEvent.readOk st.content :: StdinEvent.close ::
              (processFilesAux fsys (i + 1) rest (closeStdin { st with content := "" })
                (insertKV fs (synName i) st.content)).2.1) =
              countReadOk (processFilesAux fsys (i + 1) rest
                (closeStdin { st with content := "" })
                (insertKV fs (synName i) st.content)).2.1 + 1 := by
            simp [countReadOk, List.countP_cons]
          rw [hstepc, hr0]
        · show countClose (StdinEvent.readOk st.content :: StdinEvent.close ::
            (processFilesAux fsys (i + 1) rest (closeStdin { st with content := "" })
              (insertKV fs (synName i) st.content)).2.1) ≤ 1
          have hstepc : countClose (StdinEvent.readOk st.content :: StdinEvent.close ::
              (processFilesAux fsys (i + 1) rest (closeStdin { st with content := "" })
                (insertKV fs (synName i) st.content)).2.1) =
              countClose (processFilesAux fsys (i + 1) rest
                (closeStdin { st with content := "" })
                (insertKV fs (synName i) st.content)).2.1 + 1 := by
            simp [countClose, List.countP_cons]
          rw [hstepc, hc0]
    · cases hfp : fsys f with
      | error e =>
        rw [processFilesAux_file_err fsys i rest st fs f e hf hfp]
        simp [countReadOk, countClose]
      | ok c =>
        rw [processFilesAux_file_ok fsys i rest st fs f c hf hfp]
        exact ih (i + 1) st (insertKV fs (pathBase f) c)

/-- Over a whole invocation the collector transfers data from stdin at most
once and closes it at most once. -/
theorem processFiles_stdin_once (stdin : StdinStream) (filenames : List String)
    (fsys : String → Except String String) :
    countReadOk (processFiles stdin filenames fsys).2.1 ≤ 1 ∧
    countClose (processFiles stdin filenames fsys).2.1 ≤ 1 := by
  by_cases h : filenames = []
  · subst h
    simp [processFiles, countReadOk, countClose]
  · unfold processFiles
    rw [if_neg h]
    exact (processFilesAux_stdin_once fsys filenames 0 stdin []).2

/-! Branch equations for the orchestration. -/

theorem optOr_none_right (a : Option String) : optOr a none = a := by
  cases a <;> rfl

theorem createRun_eq_collect_err (opts : CreateOptions) (stdin : StdinStream)
    (fsys : String → Except String String) (client : Except String Unit)
    (api : Except ApiError Gist) (e : CollectError) (evs : List StdinEvent)
    (st' : StdinStream)
    (h : processFiles stdin (effectiveFileArgs opts.filenames) fsys =
      (Except.error e, evs, st')) :
    createRun opts stdin fsys client api =
      { outLines := [], status := [], stdinEvents := evs,
        result := some (RunError.collect e) } := by
  unfold createRun
  rw [h]

theorem createRun_eq_client_err (opts : CreateOptions) (stdin : StdinStream)
    (fsys : String → Except String String) (api : Except ApiError Gist)
    (ce : String) (files : List (String × String)) (evs : List StdinEvent)
    (st' : StdinStream)
    (h : processFiles stdin (effectiveFileArgs opts.filenames) fsys =
      (Except.ok files, evs, st')) :
    createRun opts stdin fsys (Except.error ce) api =
      { outLines := [],
        status := [StatusEvent.progress
          (processMessageFor (guessGistName (files.map Prod.fst)) files.length)],
        stdinEvents := evs,
        result := some (RunError.client ce) } := by
  unfold createRun
  rw [h]

theorem createRun_eq_scope_err (opts : CreateOptions) (stdin : StdinStream)
    (fsys : String → Except String String) (aerr : ApiError)
    (files : List (String × String)) (evs : List StdinEvent) (st' : StdinStream)
    (h : processFiles stdin (effectiveFileArgs opts.filenames) fsys =
      (Except.ok files, evs, st'))
    (hm : missingGistScope aerr = true) :
    createRun opts stdin fsys (Except.ok ()) (Except.error aerr) =
      { outLines := [],
        status := [StatusEvent.progress
          (processMessageFor (guessGistName (files.map Prod.fst)) files.length)],
        stdinEvents := evs,
        result := some RunError.scope } := by
  unfold createRun
  rw [h]
  simp [hm]

theorem createRun_eq_publish_err (opts : CreateOptions) (stdin : StdinStream)
    (fsys : String → Except String String) (aerr : ApiError)
    (files : List (String × String)) (evs : List StdinEvent) (st' : StdinStream)
    (h : processFiles stdin (effectiveFileArgs opts.filenames) fsys =
      (Except.ok files, evs, st'))
    (hm : missingGistScope aerr = false) :
    createRun opts stdin fsys (Except.ok ()) (Except.error aerr) =
      { outLines := [],
        status := [StatusEvent.progress
          (processMessageFor (guessGistName (files.map Prod.fst)) files.length)],
        stdinEvents := evs,
        result := some (RunError.publish aerr) } := by
  unfold createRun
  rw [h]
  simp [hm]

theorem createRun_eq_success (opts : CreateOptions) (stdin : StdinStream)
    (fsys : String → Except String String) (g : Gist)
    (files : List (String × String)) (evs : List StdinEvent) (st' : StdinStream)
    (h : processFiles stdin (effectiveFileArgs opts.filenames) fsys =
      (Except.ok files, evs, st')) :
    createRun opts stdin fsys (Except.ok ()) (Except.ok g) =
      { outLines := [g.htmlUrl],
        status := [StatusEvent.progress
            (processMessageFor (guessGistName (files.map Prod.fst)) files.length),
          StatusEvent.completion
            (completionMessageFor (guessGistName (files.map Prod.fst)))],
        stdinEvents := evs,
        result := none } := by
  unfold createRun
  rw [h]

/-! Claim theorems. -/

/-- C2: for every FileSet, `guessGistName` returns the lexicographically
smallest key that does not match the synthetic pattern `gistfileN.txt`
(the anchored digits pattern of create.go line 176), and returns the empty
string when every key matches it; in particular it returns "a.py" on keys
gistfile0.txt, b.py, a.py and "" on keys gistfile0.txt, gistfile1.txt. -/
theorem guessGistName_smallest_nonsynthetic :
    (∀ keys : List String, (∀ k ∈ keys, isSyntheticKey k = true) →
      guessGistName keys = "") ∧
    (∀ (keys : List String) (k0 : String), k0 ∈ keys → isSyntheticKey k0 = false →
      (guessGistName keys ∈ keys ∧ isSyntheticKey (guessGistName keys) = false ∧
        ∀ k ∈ keys, isSyntheticKey k = false → strLeRel (guessGistName keys) k)) ∧
    guessGistName ["gistfile0.txt", "b.py", "a.py"] = "a.py" ∧
    guessGistName ["gistfile0.txt", "gistfile1.txt"] = "" := by
  refine ⟨?_, ?_, by rfl, by rfl⟩
  · intro keys hall
    rcases guessGistName_spec keys with ⟨h1, _⟩ | ⟨hmem, hns, _⟩
    · exact h1
    · rw [hall _ hmem] at hns
      exact Bool.noConfusion hns
  · intro keys k0 hk0 hk0s
    rcases guessGistName_spec keys with ⟨_, hall⟩ | h
    · rw [hall k0 hk0] at hk0s
      exact Bool.noConfusion hk0s
    · exact h

/-- Witness for C2 at the two concrete key sets of the claim. -/
theorem guessGistName_smallest_nonsynthetic_witness :
    guessGistName ["gistfile0.txt", "b.py", "a.py"] = "a.py" ∧
    guessGistName ["gistfile0.txt", "gistfile1.txt"] = "" :=
  ⟨guessGistName_smallest_nonsynthetic.2.2.1,
    guessGistName_smallest_nonsynthetic.2.2.2⟩

/-- C9: the heuristic is a pure deterministic function of the key set: its
result is invariant under permutation of the key sequence (the map
iteration order), and is either the empty string or one of the keys. -/
theorem guessGistName_perm_invariant (keys1 keys2 : List String)
    (h : keys1.Perm keys2) :
    guessGistName keys1 = guessGistName keys2 ∧
    (guessGistName keys1 = "" ∨ guessGistName keys1 ∈ keys1) := by
  refine ⟨guessGistName_perm h, ?_⟩
  rcases guessGistName_spec keys1 with ⟨h1, _⟩ | ⟨hmem, _, _⟩
  · exact Or.inl h1
  · exact Or.inr hmem

/-- Witness for C9 at a concrete permutation. -/
theorem guessGistName_perm_invariant_witness :
    guessGistName ["b.py", "a.py"] = guessGistName ["a.py", "b.py"] ∧
    (guessGistName ["b.py", "a.py"] = "" ∨
      guessGistName ["b.py", "a.py"] ∈ ["b.py", "a.py"]) :=
  guessGistName_perm_invariant ["b.py", "a.py"] ["a.py", "b.py"]
    (List.Perm.swap "a.py" "b.py" [])

/-- C10: a real file whose basename matches the synthetic pattern is
excluded from name guessing exactly like stdin entries: collecting the
real file notes/gistfile5.txt touches stdin not at all and keys the content
under gistfile5.txt, that key counts as synthetic, and a FileSet with only
synthetic keys yields the empty display name. -/
theorem syntheticNamedRealFile_excluded (keys : List String)
    (fsys : String → Except String String) (stdin : StdinStream) (c : String)
    (hall : ∀ k ∈ keys, isSyntheticKey k = true)
    (hc : fsys "notes/gistfile5.txt" = Except.ok c) :
    guessGistName keys = "" ∧
    processFiles stdin ["notes/gistfile5.txt"] fsys =
      (Except.ok [("gistfile5.txt", c)], [], stdin) ∧
    isSyntheticKey "gistfile5.txt" = true ∧
    guessGistName ["gistfile5.txt"] = "" := by
  refine ⟨?_, ?_, by decide, by rfl⟩
  · rcases guessGistName_spec keys with ⟨h1, _⟩ | ⟨hmem, hns, _⟩
    · exact h1
    · rw [hall _ hmem] at hns
      exact Bool.noConfusion hns
  · have h := processFiles_nodash stdin ["notes/gistfile5.txt"] fsys (by simp)
      (by intro p hp; rw [List.mem_singleton] at hp; subst hp; decide)
      (by intro p hp; rw [List.mem_singleton] at hp; subst hp; rw [hc]; rfl)
    rw [h]
    have hb : pathBase "notes/gistfile5.txt" = "gistfile5.txt" := by decide
    have hfold : collectFold fsys [] ["notes/gistfile5.txt"] =
        [("gistfile5.txt", c)] := by
      simp [collectFold, insertKV, hc, exGet, hb]
    rw [hfold]

/-- Witness for C10 at concrete inputs. -/
theorem syntheticNamedRealFile_excluded_witness :
    guessGistName ["gistfile0.txt", "gistfile77.txt"] = "" ∧
    processFiles ⟨"zz", false⟩ ["notes/gistfile5.txt"]
        (fun p => if p = "notes/gistfile5.txt" then Except.ok "PAYLOAD"
          else Except.error "nope") =
      (Except.ok [("gistfile5.txt", "PAYLOAD")], [], ⟨"zz", false⟩) ∧
    isSyntheticKey "gistfile5.txt" = true ∧
    guessGistName ["gistfile5.txt"] = "" :=
  syntheticNamedRealFile_excluded ["gistfile0.txt", "gistfile77.txt"]
    (fun p => if p = "notes/gistfile5.txt" then Except.ok "PAYLOAD"
      else Except.error "nope")
    ⟨"zz", false⟩ "PAYLOAD" (by decide) (by rfl)

/-- C3: on a non-empty dash-free list of readable paths the collector
succeeds without touching stdin; each key maps to the content of the last
listed path with that basename (last-write-wins on collision, no error),
and the keys are exactly the basenames of the listed paths. -/
theorem processFiles_realFiles (stdin : StdinStream) (paths : List String)
    (fsys : String → Except String String) (k : String)
    (hne : paths ≠ []) (hnd : ∀ p ∈ paths, p ≠ "-")
    (hok : ∀ p ∈ paths, Except.isOk (fsys p) = true) :
    Except.isOk (processFiles stdin paths fsys).1 = true ∧
    (processFiles stdin paths fsys).2.1 = [] ∧
    (processFiles stdin paths fsys).2.2 = stdin ∧
    ((processFiles stdin paths fsys).1.toOption.bind
        (fun fs => lookupKV fs k)) = lastWrite fsys paths k ∧
    ((lastWrite fsys paths k).isSome = true ↔ k ∈ paths.map pathBase) := by
  have h := processFiles_nodash stdin paths fsys hne hnd hok
  rw [h]
  refine ⟨rfl, rfl, rfl, ?_, lastWrite_isSome_iff fsys paths k⟩
  show lookupKV (collectFold fsys [] paths) k = lastWrite fsys paths k
  rw [lookupKV_collectFold]
  rw [show lookupKV [] k = none from rfl, optOr_none_right]

/-- Witness for C3 on three concrete files with a basename collision. -/
theorem processFiles_realFiles_witness :
    Except.isOk (processFiles ⟨"zz", false⟩ ["a/x.txt", "b.py", "sub/x.txt"]
        (fun p => if p = "a/x.txt" then Except.ok "A"
          else if p = "b.py" then Except.ok "B"
          else if p = "sub/x.txt" then Except.ok "S"
          else Except.error "nope")).1 = true ∧
    ((processFiles ⟨"zz", false⟩ ["a/x.txt", "b.py", "sub/x.txt"]
        (fun p => if p = "a/x.txt" then Except.ok "A"
          else if p = "b.py" then Except.ok "B"
          else if p = "sub/x.txt" then Except.ok "S"
          else Except.error "nope")).1.toOption.bind
      (fun fs => lookupKV fs "x.txt")) = some "S" := by
  have h := processFiles_realFiles ⟨"zz", false⟩ ["a/x.txt", "b.py", "sub/x.txt"]
    (fun p => if p = "a/x.txt" then Except.ok "A"
      else if p = "b.py" then Except.ok "B"
      else if p = "sub/x.txt" then Except.ok "S"
      else Except.error "nope") "x.txt"
    (by decide) (by decide) (by decide)
  exact ⟨h.1, h.2.2.2.1.trans (by decide)⟩

/-- C5: the collector errs exactly when the list is empty or a read fails:
success is equivalent to a non-empty list whose real-file reads all succeed
and whose stdin tokens are readable; the empty list gives the defensive
no-files error; and a file-read error names an offending path of the list
and wraps exactly that path's underlying failure. -/
theorem processFiles_error_spec (stdin : StdinStream) (filenames : List String)
    (fsys : String → Except String String) (p cause : String) :
    (Except.isOk (processFiles stdin filenames fsys).1 = true ↔
      (filenames ≠ [] ∧ (∀ q ∈ filenames, q ≠ "-" → Except.isOk (fsys q) = true) ∧
        ("-" ∉ filenames ∨ (stdin.closed = false ∧ filenames.count "-" = 1)))) ∧
    (filenames = [] →
      (processFiles stdin filenames fsys).1 = Except.error CollectError.noFiles) ∧
    ((processFiles stdin filenames fsys).1 =
        Except.error (CollectError.fileRead p cause) →
      p ∈ filenames ∧ fsys p = Except.error cause) := by
  refine ⟨processFiles_isOk stdin filenames fsys, ?_, ?_⟩
  · intro h
    subst h
    rfl
  · intro h
    by_cases hemp : filenames = []
    · subst hemp
      simp [processFiles] at h
    · unfold processFiles at h
      rw [if_neg hemp] at h
      exact processFilesAux_fileRead fsys filenames 0 stdin [] p cause h

/-- Witness for C5: a concrete failing read is reported with its path and
cause. -/
theorem processFiles_error_spec_witness :
    "x.txt" ∈ ["x.txt"] ∧
    (fun _ : String => (Except.error "boom" : Except String String)) "x.txt" =
      Except.error "boom" :=
  (processFiles_error_spec ⟨"", false⟩ ["x.txt"]
    (fun _ => Except.error "boom") "x.txt" "boom").2.2 (by rfl)

/-- C8: over any invocation, the collector transfers data from the standard
input stream at most once and closes it at most once, also on lists with
several "-" tokens (a later "-" attempts a read that fails on the already
closed stream and transfers nothing). -/
theorem processFiles_stdin_single_use (stdin : StdinStream)
    (filenames : List String) (fsys : String → Except String String) :
    countReadOk (processFiles stdin filenames fsys).2.1 ≤ 1 ∧
    countClose (processFiles stdin filenames fsys).2.1 ≤ 1 :=
  processFiles_stdin_once stdin filenames fsys

/-- Witness for C8 on a list with two "-" tokens. -/
theorem processFiles_stdin_single_use_witness :
    countReadOk (processFiles ⟨"hello", false⟩ ["-", "-"]
      (fun _ => Except.error "e")).2.1 ≤ 1 ∧
    countClose (processFiles ⟨"hello", false⟩ ["-", "-"]
      (fun _ => Except.error "e")).2.1 ≤ 1 :=
  processFiles_stdin_single_use ⟨"hello", false⟩ ["-", "-"]
    (fun _ => Except.error "e")

/-- C1 as stated fails on the code: here is a successful run whose FileSet
has two entries and whose heuristic yields the empty string, yet the status
stream carries the generic "Creating gist..." progress line and no line
mentioning multiple files (the URL line is still the sole primary
output). -/
theorem createRun_multi_noname_counterexample :
    (createRun ⟨"", false, ["-", "gistfile1.txt"]⟩ ⟨"hello", false⟩
        (fun p => if p = "gistfile1.txt" then Except.ok "world"
          else Except.error "open failed")
        (Except.ok ()) (Except.ok ⟨"https://gist.github.com/aa/bb"⟩)).result =
      none ∧
    (processFiles ⟨"hello", false⟩ ["-", "gistfile1.txt"]
        (fun p => if p = "gistfile1.txt" then Except.ok "world"
          else Except.error "open failed")).1 =
      Except.ok [("gistfile0.txt", "hello"), ("gistfile1.txt", "world")] ∧
    guessGistName ["gistfile0.txt", "gistfile1.txt"] = "" ∧
    (createRun ⟨"", false, ["-", "gistfile1.txt"]⟩ ⟨"hello", false⟩
        (fun p => if p = "gistfile1.txt" then Except.ok "world"
          else Except.error "open failed")
        (Except.ok ()) (Except.ok ⟨"https://gist.github.com/aa/bb"⟩)).status =
      [StatusEvent.progress "Creating gist...",
        StatusEvent.completion "Created gist"] ∧
    ((createRun ⟨"", false, ["-", "gistfile1.txt"]⟩ ⟨"hello", false⟩
        (fun p => if p = "gistfile1.txt" then Except.ok "world"
          else Except.error "open failed")
        (Except.ok ()) (Except.ok ⟨"https://gist.github.com/aa/bb"⟩)).status.all
      (fun ev => match ev with
        | StatusEvent.progress m => !(containsSub ("multiple files".toList) m.toList)
        | StatusEvent.completion _ => true)) = true ∧
    (createRun ⟨"", false, ["-", "gistfile1.txt"]⟩ ⟨"hello", false⟩
        (fun p => if p = "gistfile1.txt" then Except.ok "world"
          else Except.error "open failed")
        (Except.ok ()) (Except.ok ⟨"https://gist.github.com/aa/bb"⟩)).outLines =
      ["https://gist.github.com/aa/bb"] := by
  refine ⟨rfl, rfl, rfl, rfl, rfl, rfl⟩

/-- C1 amended: a successful run whose FileSet has at least two entries and
no guessable name emits the generic "Creating gist..." progress message —
the multiple-files text is reserved for runs where a name was guessed — and
prints exactly one line, the gist URL, to the primary output stream. -/
theorem createRun_multi_noname_generic (opts : CreateOptions)
    (stdin : StdinStream) (fsys : String → Except String String)
    (files : List (String × String)) (evs : List StdinEvent) (st' : StdinStream)
    (g : Gist)
    (hp : processFiles stdin (effectiveFileArgs opts.filenames) fsys =
      (Except.ok files, evs, st'))
    (_hlen : 2 ≤ files.length)
    (hguess : guessGistName (files.map Prod.fst) = "") :
    createRun opts stdin fsys (Except.ok ()) (Except.ok g) =
      { outLines := [g.htmlUrl],
        status := [StatusEvent.progress "Creating gist...",
          StatusEvent.completion "Created gist"],
        stdinEvents := evs, result := none } := by
  rw [createRun_eq_success opts stdin fsys g files evs st' hp, hguess]
  rfl

/-- Witness for the amended C1 at concrete inputs. -/
theorem createRun_multi_noname_generic_witness :
    createRun ⟨"", false, ["-", "gistfile1.txt"]⟩ ⟨"hello", false⟩
        (fun p => if p = "gistfile1.txt" then Except.ok "world"
          else Except.error "open failed")
        (Except.ok ()) (Except.ok ⟨"https://gist.github.com/aa/bb"⟩) =
      { outLines := ["https://gist.github.com/aa/bb"],
        status := [StatusEvent.progress "Creating gist...",
          StatusEvent.completion "Created gist"],
        stdinEvents := [StdinEvent.readOk "hello", StdinEvent.close],
        result := none } :=
  createRun_multi_noname_generic ⟨"", false, ["-", "gistfile1.txt"]⟩
    ⟨"hello", false⟩
    (fun p => if p = "gistfile1.txt" then Except.ok "world"
      else Except.error "open failed")
    [("gistfile0.txt", "hello"), ("gistfile1.txt", "world")]
    [StdinEvent.readOk "hello", StdinEvent.close] ⟨"", true⟩
    ⟨"https://gist.github.com/aa/bb"⟩ (by rfl) (by decide) (by rfl)

/-- C4 as stated fails on the code: on the list with "-" at positions 0 and
1 the second stdin read happens after the stream was closed, so the
collector fails and no FileSet entry gistfile1.txt is produced at all. -/
theorem processFiles_double_dash_counterexample :
    (processFiles ⟨"hello", false⟩ ["-", "-"] (fun _ => Except.error "nofile")).1 =
      Except.error (CollectError.stdinRead "file already closed") ∧
    Except.isOk (processFiles ⟨"hello", false⟩ ["-", "-"]
        (fun _ => Except.error "nofile")).1 = false :=
  ⟨rfl, rfl⟩

/-- C4 amended: when "-" occurs exactly once, at zero-based position
i = |pre|, the stream is open, every real-file read succeeds, and no later
real file collides with the synthetic basename, the FileSet maps
gistfile{i}.txt to the full stdin content; an empty filename list is
defaulted to the single token "-", and that single-dash run yields exactly
one entry gistfile0.txt with the full stdin content. -/
theorem processFiles_single_dash (stdin : StdinStream)
    (fsys : String → Except String String) (pre post : List String)
    (hop : stdin.closed = false)
    (hnd1 : ∀ p ∈ pre, p ≠ "-") (hnd2 : ∀ p ∈ post, p ≠ "-")
    (hok1 : ∀ p ∈ pre, Except.isOk (fsys p) = true)
    (hok2 : ∀ p ∈ post, Except.isOk (fsys p) = true)
    (hnc : ∀ p ∈ post, pathBase p ≠ synName pre.length) :
    Except.isOk (processFiles stdin (pre ++ "-" :: post) fsys).1 = true ∧
    ((processFiles stdin (pre ++ "-" :: post) fsys).1.toOption.bind
        (fun fs => lookupKV fs (synName pre.length))) = some stdin.content ∧
    effectiveFileArgs [] = ["-"] ∧
    processFiles stdin ["-"] fsys =
      (Except.ok [(synName 0, stdin.content)],
        [StdinEvent.readOk stdin.content, StdinEvent.close],
        closeStdin { stdin with content := "" }) := by
  have hne : pre ++ "-" :: post ≠ [] := by
    intro hh
    rcases List.append_eq_nil.mp hh with ⟨_, h2⟩
    exact List.noConfusion h2
  have e1 : processFiles stdin (pre ++ "-" :: post) fsys =
      processFilesAux fsys 0 (pre ++ "-" :: post) stdin [] := by
    unfold processFiles
    rw [if_neg hne]
  have e2 : processFilesAux fsys 0 (pre ++ "-" :: post) stdin [] =
      processFilesAux fsys pre.length ("-" :: post) stdin
        (collectFold fsys [] pre) := by
    have h := processFilesAux_nodash fsys pre ("-" :: post) 0 stdin [] hnd1 hok1
    rw [Nat.zero_add] at h
    exact h
  have e4 : processFilesAux fsys (pre.length + 1) post
      (closeStdin { stdin with content := "" })
      (insertKV (collectFold fsys [] pre) (synName pre.length) stdin.content) =
      (Except.ok (collectFold fsys (insertKV (collectFold fsys [] pre)
          (synName pre.length) stdin.content) post),
        [], closeStdin { stdin with content := "" }) := by
    have h := processFilesAux_nodash fsys post [] (pre.length + 1)
      (closeStdin { stdin with content := "" })
      (insertKV (collectFold fsys [] pre) (synName pre.length) stdin.content)
      hnd2 hok2
    rw [List.append_nil] at h
    rw [h]
    rfl
  have hfst : (processFiles stdin (pre ++ "-" :: post) fsys).1 =
      Except.ok (collectFold fsys (insertKV (collectFold fsys [] pre)
        (synName pre.length) stdin.content) post) := by
    rw [e1, e2, processFilesAux_dash_open fsys pre.length post stdin
      (collectFold fsys [] pre) hop]
    show (processFilesAux fsys (pre.length + 1) post
        (closeStdin { stdin with content := "" })
        (insertKV (collectFold fsys [] pre) (synName pre.length)
          stdin.content)).1 = _
    rw [e4]
  refine ⟨?_, ?_, rfl, ?_⟩
  · rw [hfst]
    rfl
  · rw [hfst]
    show lookupKV (collectFold fsys (insertKV (collectFold fsys [] pre)
        (synName pre.length) stdin.content) post) (synName pre.length) =
      some stdin.content
    rw [lookupKV_collectFold]
    have hlw : lastWrite fsys post (synName pre.length) = none := by
      unfold lastWrite
      rw [List.find?_eq_none.mpr ?_]
      · rfl
      · intro x hx
        have hx2 := hnc x (List.mem_reverse.mp hx)
        simp [hx2]
    rw [hlw, optOr_none, lookupKV_insertKV]
    simp
  · have f1 : processFiles stdin ["-"] fsys =
        processFilesAux fsys 0 ["-"] stdin [] := by
      unfold processFiles
      rw [if_neg (by simp)]
    rw [f1, processFilesAux_dash_open fsys 0 [] stdin [] hop]
    rfl

/-- Witness for the amended C4 with "-" at position 1. -/
theorem processFiles_single_dash_witness :
    Except.isOk (processFiles ⟨"hi", false⟩ (["a.py"] ++ "-" :: ["b.py"])
        (fun p => if p = "a.py" then Except.ok "A"
          else if p = "b.py" then Except.ok "B" else Except.error "e")).1 = true ∧
    ((processFiles ⟨"hi", false⟩ (["a.py"] ++ "-" :: ["b.py"])
        (fun p => if p = "a.py" then Except.ok "A"
          else if p = "b.py" then Except.ok "B" else Except.error "e")).1.toOption.bind
      (fun fs => lookupKV fs (synName (["a.py"] : List String).length))) =
      some "hi" ∧
    effectiveFileArgs [] = ["-"] ∧
    processFiles ⟨"hi", false⟩ ["-"]
        (fun p => if p = "a.py" then Except.ok "A"
          else if p = "b.py" then Except.ok "B" else Except.error "e") =
      (Except.ok [(synName 0, "hi")],
        [StdinEvent.readOk "hi", StdinEvent.close],
        closeStdin { StdinStream.mk "hi" false with content := "" }) :=
  processFiles_single_dash ⟨"hi", false⟩
    (fun p => if p = "a.py" then Except.ok "A"
      else if p = "b.py" then Except.ok "B" else Except.error "e")
    ["a.py"] ["b.py"] (by rfl) (by decide) (by decide) (by decide) (by decide)
    (by decide)

/-- C6: after a successful collection, with a working client, a publish
failure is translated to the specific re-authentication remediation error
exactly when `missingGistScope` holds of it — the error is an HTTP error
whose OAuth scope field is non-empty and lacks the substring "gist" — and
every other publish failure becomes the generic wrapped publish error. -/
theorem createRun_scope_spec (opts : CreateOptions) (stdin : StdinStream)
    (fsys : String → Except String String) (files : List (String × String))
    (evs : List StdinEvent) (st' : StdinStream) (aerr : ApiError)
    (hp : processFiles stdin (effectiveFileArgs opts.filenames) fsys =
      (Except.ok files, evs, st')) :
    (createRun opts stdin fsys (Except.ok ()) (Except.error aerr)).result =
      (if missingGistScope aerr then some RunError.scope
        else some (RunError.publish aerr)) ∧
    ((createRun opts stdin fsys (Except.ok ()) (Except.error aerr)).result =
        some RunError.scope ↔ missingGistScope aerr = true) := by
  cases hm : missingGistScope aerr
  · rw [createRun_eq_publish_err opts stdin fsys aerr files evs st' hp hm]
    refine ⟨by simp, ?_, ?_⟩
    · intro hh
      simp at hh
    · intro hh
      exact Bool.noConfusion hh
  · rw [createRun_eq_scope_err opts stdin fsys aerr files evs st' hp hm]
    exact ⟨by simp, by simp⟩

/-- Witness for C6 at a concrete scope-lacking HTTP error. -/
theorem createRun_scope_spec_witness :
    (createRun ⟨"", false, ["a.py"]⟩ ⟨"", false⟩ (fun _ => Except.ok "A")
        (Except.ok ())
        (Except.error (ApiError.http "repo read:org" "403"))).result =
      (if missingGistScope (ApiError.http "repo read:org" "403")
        then some RunError.scope
        else some (RunError.publish (ApiError.http "repo read:org" "403"))) ∧
    ((createRun ⟨"", false, ["a.py"]⟩ ⟨"", false⟩ (fun _ => Except.ok "A")
        (Except.ok ())
        (Except.error (ApiError.http "repo read:org" "403"))).result =
        some RunError.scope ↔
      missingGistScope (ApiError.http "repo read:org" "403") = true) :=
  createRun_scope_spec ⟨"", false, ["a.py"]⟩ ⟨"", false⟩ (fun _ => Except.ok "A")
    [("a.py", "A")] [] ⟨"", false⟩ (ApiError.http "repo read:org" "403") (by rfl)

/-- C7: the primary output stream receives a line only on full success —
and then exactly one line, the created gist URL — while on any failure
(collection, client acquisition or publish) nothing is written to it and
no completion status line is emitted. -/
theorem createRun_output_spec (opts : CreateOptions) (stdin : StdinStream)
    (fsys : String → Except String String) (client : Except String Unit)
    (api : Except ApiError Gist) :
    ((createRun opts stdin fsys client api).result = none →
      (createRun opts stdin fsys client api).outLines = apiUrlList api ∧
      (createRun opts stdin fsys client api).outLines.length = 1 ∧
      (createRun opts stdin fsys client api).status.countP isCompletionEv = 1) ∧
    ((createRun opts stdin fsys client api).result ≠ none →
      (createRun opts stdin fsys client api).outLines = [] ∧
      (createRun opts stdin fsys client api).status.countP isCompletionEv = 0) := by
  rcases hpf : processFiles stdin (effectiveFileArgs opts.filenames) fsys
    with ⟨r, evs, st'⟩
  cases r with
  | error e =>
    rw [createRun_eq_collect_err opts stdin fsys client api e evs st' hpf]
    constructor
    · intro h
      exact absurd h (by simp)
    · intro _
      exact ⟨rfl, rfl⟩
  | ok files =>
    cases client with
    | error ce =>
      rw [createRun_eq_client_err opts stdin fsys api ce files evs st' hpf]
      constructor
      · intro h
        exact absurd h (by simp)
      · intro _
        exact ⟨rfl, rfl⟩
    | ok u =>
      cases u
      cases api with
      | error aerr =>
        cases hm : missingGistScope aerr
        · rw [createRun_eq_publish_err opts stdin fsys aerr files evs st' hpf hm]
          constructor
          · intro h
            exact absurd h (by simp)
          · intro _
            exact ⟨rfl, rfl⟩
        · rw [createRun_eq_scope_err opts stdin fsys aerr files evs st' hpf hm]
          constructor
          · intro h
            exact absurd h (by simp)
          · intro _
            exact ⟨rfl, rfl⟩
      | ok g =>
        rw [createRun_eq_success opts stdin fsys g files evs st' hpf]
        constructor
        · intro _
          exact ⟨rfl, rfl, rfl⟩
        · intro h
          exact absurd rfl h

/-- Witness for C7 at a concrete failing run (client acquisition fails):
the primary stream gets nothing and no completion line is emitted. -/
theorem createRun_output_spec_witness :
    (createRun ⟨"d", true, ["a.py"]⟩ ⟨"", false⟩ (fun _ => Except.ok "A")
        (Except.error "no client") (Except.error (ApiError.other "x"))).outLines =
      [] ∧
    (createRun ⟨"d", true, ["a.py"]⟩ ⟨"", false⟩ (fun _ => Except.ok "A")
        (Except.error "no client")
        (Except.error (ApiError.other "x"))).status.countP isCompletionEv = 0 :=
  (createRun_output_spec ⟨"d", true, ["a.py"]⟩ ⟨"", false⟩ (fun _ => Except.ok "A")
    (Except.error "no client") (Except.error (ApiError.other "x"))).2 (by decide)

example : pathBase "notes/gistfile5.txt" = "gistfile5.txt" := by decide
example : pathBase "a/b/" = "b" := by decide
example : pathBase "///" = "/" := by decide
example : pathBase "" = "." := by decide
example : isSyntheticKey "gistfile0.txt" = true := by decide
example : isSyntheticKey "gistfile12.txt" = true := by decide
example : isSyntheticKey "gistfile.txt" = false := by decide
example : isSyntheticKey "a.py" = false := by decide
example : guessGistName ["gistfile0.txt", "b.py", "a.py"] = "a.py" := by rfl
example : guessGistName ["gistfile0.txt", "gistfile1.txt"] = "" := by rfl
example :
    (processFiles ⟨"hello", false⟩ ["-", "-"] (fun _ => Except.error "nofile")).1 =
      Except.error (CollectError.stdinRead "file already closed") := by rfl
example :
    processFiles ⟨"hello", false⟩ ["-"] (fun _ => Except.error "nofile") =
      (Except.ok [("gistfile0.txt", "hello")],
        [StdinEvent.readOk "hello", StdinEvent.close], ⟨"", true⟩) := by rfl
